import Mathlib

/-!
Shallow embedding of `src/bq25570_calc.py` (TI bq25570 resistor-divider
calculator).  Python floats are modelled as exact rationals `ℚ`; decimal
literals of the source become the corresponding rationals.  Python lists
become `List`, `None`-able values become `Option`, and `list.sort` with a
`(error, rsum)` key becomes a stable `mergeSort` under the lexicographic
order on those two fields.
-/

namespace BQ25570

/-- VBIAS nominal (datasheet Electrical Characteristics). -/
def VBIAS_TYP : ℚ := 1.21

/-- VBIAS lower worst-case corner. -/
def VBIAS_MIN : ℚ := 1.205

/-- VBIAS upper worst-case corner. -/
def VBIAS_MAX : ℚ := 1.217

/-- Datasheet guidance for high-impedance VRDIV networks (≈ 13 MΩ). -/
def DEFAULT_RSUM_MAX : ℚ := 13000000

def E24_BASE : List ℚ :=
  [1.0, 1.1, 1.2, 1.3, 1.5, 1.6, 1.8, 2.0, 2.2, 2.4, 2.7, 3.0,
   3.3, 3.6, 3.9, 4.3, 4.7, 5.1, 5.6, 6.2, 6.8, 7.5, 8.2, 9.1]

def E96_BASE : List ℚ :=
  [1.00, 1.02, 1.05, 1.07, 1.10, 1.13, 1.15, 1.18, 1.21, 1.24, 1.27, 1.30, 1.33, 1.37, 1.40, 1.43,
   1.47, 1.50, 1.54, 1.58, 1.62, 1.65, 1.69, 1.74, 1.78, 1.82, 1.87, 1.91, 1.96, 2.00, 2.05, 2.10,
   2.15, 2.21, 2.26, 2.32, 2.37, 2.43, 2.49, 2.55, 2.61, 2.67, 2.74, 2.80, 2.87, 2.94, 3.01, 3.09,
   3.16, 3.24, 3.32, 3.40, 3.48, 3.57, 3.65, 3.74, 3.83, 3.92, 4.02, 4.12, 4.22, 4.32, 4.42, 4.53,
   4.64, 4.75, 4.87, 4.99, 5.11, 5.23, 5.36, 5.49, 5.62, 5.76, 5.90, 6.04, 6.19, 6.34, 6.49, 6.65,
   6.81, 6.98, 7.15, 7.32, 7.50, 7.68, 7.87, 8.06, 8.25, 8.45, 8.66, 8.87, 9.09, 9.31, 9.53, 9.76]

structure TwoResCandidate where
  error : ℚ
  v_nom : ℚ
  r1 : ℚ
  r2 : ℚ
  rsum : ℚ
deriving DecidableEq, Repr

structure ThreeResCandidate where
  error : ℚ
  v_prog : ℚ
  v_hyst : ℚ
  r1 : ℚ
  r2 : ℚ
  r3 : ℚ
  rsum : ℚ
deriving DecidableEq, Repr

/-- `ESeries(name, decade_min, decade_max)`: decades are Python ints. -/
structure ESeries where
  name : String
  decade_min : ℤ
  decade_max : ℤ

/-- Python `range(lo, hi + 1)` over integers. -/
def decadeRange (lo hi : ℤ) : List ℤ :=
  (List.range (hi + 1 - lo).toNat).map (fun i : ℕ => lo + (i : ℤ))

/-- Boolean `≤` on `ℚ`, the comparison used to model Python `sorted`. -/
def ratLe (a b : ℚ) : Bool := decide (a ≤ b)

/-- `ESeries.values`: every base mantissa scaled by `10^d` for each decade
`d` in the configured span, then sorted ascending. -/
def ESeries.values (s : ESeries) : List ℚ :=
  let base := if s.name = "E24" then E24_BASE else E96_BASE
  let vals := (decadeRange s.decade_min s.decade_max).flatMap
    (fun d => base.map (fun b => b * (10 : ℚ) ^ d))
  vals.mergeSort ratLe

namespace Calculator

/-- `Calculator.vout`: R1 = bottom, R2 = top.  The Python default argument
`vbias=VBIAS_TYP` is passed explicitly at every call site below. -/
def vout (r1 r2 vbias : ℚ) : ℚ :=
  vbias * (1 + r2 / r1)

/-- `Calculator.vbat_ov`: 3/2 scaling factor per OV comparator. -/
def vbat_ov (r1 r2 vbias : ℚ) : ℚ :=
  1.5 * vbias * (1 + r2 / r1)

/-- `Calculator.vbat_ok_prog`. -/
def vbat_ok_prog (r1 r2 vbias : ℚ) : ℚ :=
  vbias * (1 + r2 / r1)

/-- `Calculator.vbat_ok_hyst`. -/
def vbat_ok_hyst (r1 r2 r3 vbias : ℚ) : ℚ :=
  vbias * (1 + (r2 + r3) / r1)

end Calculator

namespace WorstCase

/-- `WorstCase.two_res_bounds`: worst-case corner interval for a
two-resistor transfer function. -/
def two_res_bounds (vfunc : ℚ → ℚ → ℚ → ℚ) (r1 r2 tol : ℚ)
    (vbounds : ℚ × ℚ) : ℚ × ℚ :=
  let r1_min := r1 * (1 - tol)
  let r1_max := r1 * (1 + tol)
  let r2_min := r2 * (1 - tol)
  let r2_max := r2 * (1 + tol)
  let v_min := vfunc r1_max r2_min vbounds.1
  let v_max := vfunc r1_min r2_max vbounds.2
  (v_min, v_max)

/-- `WorstCase.ok_bounds`: worst-case intervals for the PROG and HYST
three-resistor formulas. -/
def ok_bounds (r1 r2 r3 tol : ℚ) (vbounds : ℚ × ℚ) :
    (ℚ × ℚ) × (ℚ × ℚ) :=
  let vp_min := Calculator.vbat_ok_prog (r1 * (1 + tol)) (r2 * (1 - tol)) vbounds.1
  let vp_max := Calculator.vbat_ok_prog (r1 * (1 - tol)) (r2 * (1 + tol)) vbounds.2
  let vh_min := Calculator.vbat_ok_hyst
    (r1 * (1 + tol)) (r2 * (1 - tol)) (r3 * (1 - tol)) vbounds.1
  let vh_max := Calculator.vbat_ok_hyst
    (r1 * (1 - tol)) (r2 * (1 + tol)) (r3 * (1 + tol)) vbounds.2
  ((vp_min, vp_max), (vh_min, vh_max))

end WorstCase

/-- `DatasheetLimits(vbat_uv, vbat_ov_target)`. -/
structure DatasheetLimits where
  vbat_uv : ℚ
  vbat_ov_target : Option ℚ

def DatasheetLimits.allow_vout_target (_d : DatasheetLimits) (v : ℚ) : Bool :=
  decide (2.0 ≤ v ∧ v ≤ 5.5)

def DatasheetLimits.allow_vbat_ov_target (_d : DatasheetLimits) (v : ℚ) : Bool :=
  decide (2.0 ≤ v ∧ v ≤ 5.5)

/-- `DatasheetLimits.ok_relationships`: the three early `return False`
guards of the source, else `True`. -/
def DatasheetLimits.ok_relationships (d : DatasheetLimits)
    (v_prog v_hyst : ℚ) : Bool :=
  if v_prog < d.vbat_uv then false
  else if v_hyst < v_prog then false
  else match d.vbat_ov_target with
    | some ov => if v_hyst > ov then false else true
    | none => true

/-- `Optimizer`: the constructor of the source sets `pool = series.values()`
(see `Optimizer.ofSeries`); the search methods read only `pool`, `rsum_max`,
`limit` and `limits`. -/
structure Optimizer where
  series : ESeries
  rsum_max : ℚ
  limit : ℕ
  limits : DatasheetLimits
  pool : List ℚ

/-- `Optimizer.__init__`. -/
def Optimizer.ofSeries (series : ESeries) (rsum_max : ℚ) (limit : ℕ)
    (limits : DatasheetLimits) : Optimizer :=
  ⟨series, rsum_max, limit, limits, series.values⟩

/-- The float literal `1e-12` slack of the never-exceed filter. -/
def NE_SLACK : ℚ := 1 / 1000000000000

/-- Lexicographic boolean order on `(error, rsum)`, the Python sort key of
`search_two`. -/
def twoResLe (a b : TwoResCandidate) : Bool :=
  decide (a.error < b.error ∨ (a.error = b.error ∧ a.rsum ≤ b.rsum))

/-- Lexicographic boolean order on `(error, rsum)`, the Python sort key of
`search_ok`. -/
def threeResLe (a b : ThreeResCandidate) : Bool :=
  decide (a.error < b.error ∨ (a.error = b.error ∧ a.rsum ≤ b.rsum))

/-- The candidate list built by the nested loops of `search_two`, before
sorting and truncation. -/
def Optimizer.candsTwo (o : Optimizer) (target : ℚ) (vfunc : ℚ → ℚ → ℚ → ℚ)
    (never_exceed : Option ℚ) (tol_for_ne : ℚ) : List TwoResCandidate :=
  o.pool.flatMap fun r1 =>
    o.pool.filterMap fun r2 =>
      let s := r1 + r2
      if s > o.rsum_max then none
      else
        let v := vfunc r1 r2 VBIAS_TYP
        match never_exceed with
        | some ne =>
          let b := WorstCase.two_res_bounds vfunc r1 r2 tol_for_ne (VBIAS_MIN, VBIAS_MAX)
          if b.2 > ne + NE_SLACK then none
          else some ⟨|v - target|, v, r1, r2, s⟩
        | none => some ⟨|v - target|, v, r1, r2, s⟩

/-- `Optimizer.search_two`. -/
def Optimizer.search_two (o : Optimizer) (target : ℚ) (vfunc : ℚ → ℚ → ℚ → ℚ)
    (never_exceed : Option ℚ := none) (tol_for_ne : ℚ := 0.01)
    (target_checker : Option (ℚ → Bool) := none) : List TwoResCandidate :=
  match target_checker with
  | some ck =>
    if ck target then
      ((o.candsTwo target vfunc never_exceed tol_for_ne).mergeSort twoResLe).take o.limit
    else []
  | none =>
    ((o.candsTwo target vfunc never_exceed tol_for_ne).mergeSort twoResLe).take o.limit

/-- The candidate list built by the nested loops of `search_ok`, before
sorting and truncation. -/
def Optimizer.candsOk (o : Optimizer) (target_prog target_hyst : Option ℚ) :
    List ThreeResCandidate :=
  o.pool.flatMap fun r1 =>
    o.pool.flatMap fun r2 =>
      let vp := Calculator.vbat_ok_prog r1 r2 VBIAS_TYP
      o.pool.filterMap fun r3 =>
        let s := r1 + r2 + r3
        if s > o.rsum_max then none
        else
          let vh := Calculator.vbat_ok_hyst r1 r2 r3 VBIAS_TYP
          if o.limits.ok_relationships vp vh then
            match target_prog, target_hyst with
            | some tp, some th => some ⟨|vp - tp| + |vh - th|, vp, vh, r1, r2, r3, s⟩
            | some tp, none => some ⟨|vp - tp|, vp, vh, r1, r2, r3, s⟩
            | none, some th => some ⟨|vh - th|, vp, vh, r1, r2, r3, s⟩
            | none, none => none
          else none

/-- `Optimizer.search_ok`. -/
def Optimizer.search_ok (o : Optimizer) (target_prog target_hyst : Option ℚ) :
    List ThreeResCandidate :=
  ((o.candsOk target_prog target_hyst).mergeSort threeResLe).take o.limit

end BQ25570

namespace BQ25570

/-! ### Helper lemmas -/

/-- Core monotonicity fact behind the worst-case corner selection: an
expression `v * (1 + u / a)` with positive bottom resistor `a`, nonnegative
upper resistance `u` and positive bias `v` is bounded below and above by the
two corners the source evaluates (`a` pushed up / `u`, `v` pushed down for
the minimum, and conversely for the maximum). -/
theorem ratio_affine_bounds (vlo vhi v' a a' u u' t : ℚ)
    (ha : 0 < a) (hu : 0 ≤ u) (ht0 : 0 ≤ t) (ht1 : t < 1)
    (hvlo : 0 < vlo) (hvl : vlo ≤ v') (hvh : v' ≤ vhi)
    (hal : a * (1 - t) ≤ a') (hau : a' ≤ a * (1 + t))
    (hul : u * (1 - t) ≤ u') (huu : u' ≤ u * (1 + t)) :
    vlo * (1 + u * (1 - t) / (a * (1 + t))) ≤ v' * (1 + u' / a') ∧
    v' * (1 + u' / a') ≤ vhi * (1 + u * (1 + t) / (a * (1 - t))) := by
  have h1t : (0 : ℚ) < 1 - t := by linarith
  have h1t' : (0 : ℚ) < 1 + t := by linarith
  have hal0 : 0 < a * (1 - t) := mul_pos ha h1t
  have hau0 : 0 < a * (1 + t) := mul_pos ha h1t'
  have ha' : 0 < a' := lt_of_lt_of_le hal0 hal
  have hul0 : 0 ≤ u * (1 - t) := mul_nonneg hu h1t.le
  have huu0 : 0 ≤ u * (1 + t) := mul_nonneg hu h1t'.le
  have hu' : 0 ≤ u' := le_trans hul0 hul
  have hq1 : u * (1 - t) / (a * (1 + t)) ≤ u' / a' := div_le_div₀ hu' hul ha' hau
  have hq2 : u' / a' ≤ u * (1 + t) / (a * (1 - t)) := div_le_div₀ huu0 huu hal0 hal
  have hql0 : 0 ≤ u * (1 - t) / (a * (1 + t)) := div_nonneg hul0 hau0.le
  have hq0 : 0 ≤ u' / a' := div_nonneg hu' ha'.le
  constructor
  · exact mul_le_mul hvl (by linarith) (by linarith) (by linarith)
  · exact mul_le_mul hvh (by linarith) (by linarith) (by linarith)

/-- `ok_relationships` accepts exactly when the programmed threshold is at
least the undervoltage floor, the hysteresis threshold is at least the
programmed one, and any configured overvoltage ceiling is respected. -/
theorem ok_relationships_iff (d : DatasheetLimits) (vp vh : ℚ) :
    d.ok_relationships vp vh = true ↔
      (d.vbat_uv ≤ vp ∧ vp ≤ vh ∧ ∀ ov ∈ d.vbat_ov_target, vh ≤ ov) := by
  unfold DatasheetLimits.ok_relationships
  by_cases h1 : vp < d.vbat_uv
  · simp only [if_pos h1, Bool.false_eq_true, false_iff]
    rintro ⟨hA, -, -⟩; linarith
  · by_cases h2 : vh < vp
    · simp only [if_neg h1, if_pos h2, Bool.false_eq_true, false_iff]
      rintro ⟨-, hB, -⟩; linarith
    · simp only [if_neg h1, if_neg h2]
      cases hov : d.vbat_ov_target with
      | none =>
        simp only [true_iff]
        exact ⟨le_of_not_lt h1, le_of_not_lt h2, by simp⟩
      | some ov =>
        by_cases h3 : vh > ov
        · simp only [if_pos h3, Bool.false_eq_true, false_iff]
          rintro ⟨-, -, hC⟩
          exact absurd (hC ov (by simp)) (not_le.mpr h3)
        · simp only [if_neg h3, true_iff]
          refine ⟨le_of_not_lt h1, le_of_not_lt h2, ?_⟩
          intro x hx
          simp only [Option.mem_def, Option.some.injEq] at hx
          subst hx
          exact le_of_not_lt h3

/-! ### Claims -/

/-- C1: interval soundness of the worst-case bound computation.  For each
transfer function of the family, strictly positive nominal resistors, a
tolerance `0 ≤ t < 1` and bias corners `0 < vlo ≤ vhi`, the interval
returned by `WorstCase.two_res_bounds` (resp. `WorstCase.ok_bounds` for the
PROG and HYST formulas) contains the function's output at every perturbed
resistor `rᵢ' ∈ [rᵢ(1-t), rᵢ(1+t)]` and every bias `v' ∈ [vlo, vhi]`. -/
theorem C1_interval_soundness
    (r1 r2 r3 t vlo vhi r1' r2' r3' v' : ℚ)
    (hr1 : 0 < r1) (hr2 : 0 < r2) (hr3 : 0 < r3)
    (ht0 : 0 ≤ t) (ht1 : t < 1)
    (hvlo : 0 < vlo) (hvv : vlo ≤ vhi)
    (h1l : r1 * (1 - t) ≤ r1') (h1u : r1' ≤ r1 * (1 + t))
    (h2l : r2 * (1 - t) ≤ r2') (h2u : r2' ≤ r2 * (1 + t))
    (h3l : r3 * (1 - t) ≤ r3') (h3u : r3' ≤ r3 * (1 + t))
    (hvl : vlo ≤ v') (hvh : v' ≤ vhi) :
    ((WorstCase.two_res_bounds Calculator.vout r1 r2 t (vlo, vhi)).1 ≤
        Calculator.vout r1' r2' v' ∧
      Calculator.vout r1' r2' v' ≤
        (WorstCase.two_res_bounds Calculator.vout r1 r2 t (vlo, vhi)).2) ∧
    ((WorstCase.two_res_bounds Calculator.vbat_ov r1 r2 t (vlo, vhi)).1 ≤
        Calculator.vbat_ov r1' r2' v' ∧
      Calculator.vbat_ov r1' r2' v' ≤
        (WorstCase.two_res_bounds Calculator.vbat_ov r1 r2 t (vlo, vhi)).2) ∧
    ((WorstCase.two_res_bounds Calculator.vbat_ok_prog r1 r2 t (vlo, vhi)).1 ≤
        Calculator.vbat_ok_prog r1' r2' v' ∧
      Calculator.vbat_ok_prog r1' r2' v' ≤
        (WorstCase.two_res_bounds Calculator.vbat_ok_prog r1 r2 t (vlo, vhi)).2) ∧
    ((WorstCase.ok_bounds r1 r2 r3 t (vlo, vhi)).1.1 ≤
        Calculator.vbat_ok_prog r1' r2' v' ∧
      Calculator.vbat_ok_prog r1' r2' v' ≤ (WorstCase.ok_bounds r1 r2 r3 t (vlo, vhi)).1.2 ∧
      (WorstCase.ok_bounds r1 r2 r3 t (vlo, vhi)).2.1 ≤
        Calculator.vbat_ok_hyst r1' r2' r3' v' ∧
      Calculator.vbat_ok_hyst r1' r2' r3' v' ≤ (WorstCase.ok_bounds r1 r2 r3 t (vlo, vhi)).2.2) := by
  obtain ⟨hv1, hv2⟩ := ratio_affine_bounds vlo vhi v' r1 r1' r2 r2' t
    hr1 hr2.le ht0 ht1 hvlo hvl hvh h1l h1u h2l h2u
  obtain ⟨hh1, hh2⟩ := ratio_affine_bounds vlo vhi v' r1 r1' (r2 + r3) (r2' + r3') t
    hr1 (by linarith) ht0 ht1 hvlo hvl hvh h1l h1u (by linarith) (by linarith)
  have e1 : (r2 + r3) * (1 - t) = r2 * (1 - t) + r3 * (1 - t) := by ring
  have e2 : (r2 + r3) * (1 + t) = r2 * (1 + t) + r3 * (1 + t) := by ring
  rw [e1] at hh1
  rw [e2] at hh2
  refine ⟨⟨?_, ?_⟩, ⟨?_, ?_⟩, ⟨?_, ?_⟩, ⟨?_, ?_, ?_, ?_⟩⟩ <;>
    simp only [WorstCase.two_res_bounds, WorstCase.ok_bounds, Calculator.vout,
      Calculator.vbat_ov, Calculator.vbat_ok_prog, Calculator.vbat_ok_hyst]
  · exact hv1
  · exact hv2
  · rw [mul_assoc, mul_assoc]
    exact mul_le_mul_of_nonneg_left hv1 (by norm_num)
  · rw [mul_assoc, mul_assoc]
    exact mul_le_mul_of_nonneg_left hv2 (by norm_num)
  · exact hv1
  · exact hv2
  · exact hv1
  · exact hv2
  · exact hh1
  · exact hh2

/-- Witness for C1 at `r1 = r2 = r3 = 1`, `t = 0`, bias corners `(1, 1)`,
perturbed values equal to the nominals. -/
theorem C1_interval_soundness_witness :
    ((WorstCase.two_res_bounds Calculator.vout 1 1 0 (1, 1)).1 ≤
        Calculator.vout 1 1 1 ∧
      Calculator.vout 1 1 1 ≤
        (WorstCase.two_res_bounds Calculator.vout 1 1 0 (1, 1)).2) ∧
    ((WorstCase.two_res_bounds Calculator.vbat_ov 1 1 0 (1, 1)).1 ≤
        Calculator.vbat_ov 1 1 1 ∧
      Calculator.vbat_ov 1 1 1 ≤
        (WorstCase.two_res_bounds Calculator.vbat_ov 1 1 0 (1, 1)).2) ∧
    ((WorstCase.two_res_bounds Calculator.vbat_ok_prog 1 1 0 (1, 1)).1 ≤
        Calculator.vbat_ok_prog 1 1 1 ∧
      Calculator.vbat_ok_prog 1 1 1 ≤
        (WorstCase.two_res_bounds Calculator.vbat_ok_prog 1 1 0 (1, 1)).2) ∧
    ((WorstCase.ok_bounds 1 1 1 0 (1, 1)).1.1 ≤ Calculator.vbat_ok_prog 1 1 1 ∧
      Calculator.vbat_ok_prog 1 1 1 ≤ (WorstCase.ok_bounds 1 1 1 0 (1, 1)).1.2 ∧
      (WorstCase.ok_bounds 1 1 1 0 (1, 1)).2.1 ≤ Calculator.vbat_ok_hyst 1 1 1 1 ∧
      Calculator.vbat_ok_hyst 1 1 1 1 ≤ (WorstCase.ok_bounds 1 1 1 0 (1, 1)).2.2) :=
  C1_interval_soundness 1 1 1 0 1 1 1 1 1 1
    (by norm_num) (by norm_num) (by norm_num) (by norm_num) (by norm_num)
    (by norm_num) (by norm_num) (by norm_num) (by norm_num) (by norm_num)
    (by norm_num) (by norm_num) (by norm_num) (by norm_num) (by norm_num)

end BQ25570

namespace BQ25570

/-- C2 counterexample: at tolerance `t = 2` (allowed by the claim's
`t ≥ 0`) with `r1 = r2 = 1`, the lower resistor corner `r1(1-t)` is
negative and the computed "interval" is inverted, so the nominal voltage
`vout(1, 1, 1.21) = 2.42` does not lie inside it. -/
theorem C2_counterexample :
    ¬((WorstCase.two_res_bounds Calculator.vout 1 1 2 (VBIAS_MIN, VBIAS_MAX)).1 ≤
        Calculator.vout 1 1 VBIAS_TYP ∧
      Calculator.vout 1 1 VBIAS_TYP ≤
        (WorstCase.two_res_bounds Calculator.vout 1 1 2 (VBIAS_MIN, VBIAS_MAX)).2) := by
  norm_num [WorstCase.two_res_bounds, Calculator.vout, VBIAS_MIN, VBIAS_MAX, VBIAS_TYP]

/-- C2 (amended to `0 ≤ t < 1`): for every transfer function of the family
and strictly positive resistors, the nominal output at the nominal bias
`VBIAS_TYP = 1.21` lies within the worst-case interval computed at the same
tolerance with the bias corner pair `(VBIAS_MIN, VBIAS_MAX) =
(1.205, 1.217)`. -/
theorem C2_nominal_in_bounds (r1 r2 r3 t : ℚ)
    (hr1 : 0 < r1) (hr2 : 0 < r2) (hr3 : 0 < r3)
    (ht0 : 0 ≤ t) (ht1 : t < 1) :
    ((WorstCase.two_res_bounds Calculator.vout r1 r2 t (VBIAS_MIN, VBIAS_MAX)).1 ≤
        Calculator.vout r1 r2 VBIAS_TYP ∧
      Calculator.vout r1 r2 VBIAS_TYP ≤
        (WorstCase.two_res_bounds Calculator.vout r1 r2 t (VBIAS_MIN, VBIAS_MAX)).2) ∧
    ((WorstCase.two_res_bounds Calculator.vbat_ov r1 r2 t (VBIAS_MIN, VBIAS_MAX)).1 ≤
        Calculator.vbat_ov r1 r2 VBIAS_TYP ∧
      Calculator.vbat_ov r1 r2 VBIAS_TYP ≤
        (WorstCase.two_res_bounds Calculator.vbat_ov r1 r2 t (VBIAS_MIN, VBIAS_MAX)).2) ∧
    ((WorstCase.two_res_bounds Calculator.vbat_ok_prog r1 r2 t (VBIAS_MIN, VBIAS_MAX)).1 ≤
        Calculator.vbat_ok_prog r1 r2 VBIAS_TYP ∧
      Calculator.vbat_ok_prog r1 r2 VBIAS_TYP ≤
        (WorstCase.two_res_bounds Calculator.vbat_ok_prog r1 r2 t (VBIAS_MIN, VBIAS_MAX)).2) ∧
    ((WorstCase.ok_bounds r1 r2 r3 t (VBIAS_MIN, VBIAS_MAX)).1.1 ≤
        Calculator.vbat_ok_prog r1 r2 VBIAS_TYP ∧
      Calculator.vbat_ok_prog r1 r2 VBIAS_TYP ≤
        (WorstCase.ok_bounds r1 r2 r3 t (VBIAS_MIN, VBIAS_MAX)).1.2 ∧
      (WorstCase.ok_bounds r1 r2 r3 t (VBIAS_MIN, VBIAS_MAX)).2.1 ≤
        Calculator.vbat_ok_hyst r1 r2 r3 VBIAS_TYP ∧
      Calculator.vbat_ok_hyst r1 r2 r3 VBIAS_TYP ≤
        (WorstCase.ok_bounds r1 r2 r3 t (VBIAS_MIN, VBIAS_MAX)).2.2) := by
  have hm1 : r1 * t ≥ 0 := mul_nonneg hr1.le ht0
  have hm2 : r2 * t ≥ 0 := mul_nonneg hr2.le ht0
  have hm3 : r3 * t ≥ 0 := mul_nonneg hr3.le ht0
  have hvlo : (0 : ℚ) < VBIAS_MIN := by norm_num [VBIAS_MIN]
  have hvl : VBIAS_MIN ≤ VBIAS_TYP := by norm_num [VBIAS_MIN, VBIAS_TYP]
  have hvh : VBIAS_TYP ≤ VBIAS_MAX := by norm_num [VBIAS_TYP, VBIAS_MAX]
  obtain ⟨hv1, hv2⟩ := ratio_affine_bounds VBIAS_MIN VBIAS_MAX VBIAS_TYP r1 r1 r2 r2 t
    hr1 hr2.le ht0 ht1 hvlo hvl hvh (by nlinarith) (by nlinarith)
    (by nlinarith) (by nlinarith)
  obtain ⟨hh1, hh2⟩ := ratio_affine_bounds VBIAS_MIN VBIAS_MAX VBIAS_TYP r1 r1
    (r2 + r3) (r2 + r3) t hr1 (by linarith) ht0 ht1 hvlo hvl hvh
    (by nlinarith) (by nlinarith) (by nlinarith) (by nlinarith)
  have e1 : (r2 + r3) * (1 - t) = r2 * (1 - t) + r3 * (1 - t) := by ring
  have e2 : (r2 + r3) * (1 + t) = r2 * (1 + t) + r3 * (1 + t) := by ring
  rw [e1] at hh1
  rw [e2] at hh2
  refine ⟨⟨?_, ?_⟩, ⟨?_, ?_⟩, ⟨?_, ?_⟩, ⟨?_, ?_, ?_, ?_⟩⟩ <;>
    simp only [WorstCase.two_res_bounds, WorstCase.ok_bounds, Calculator.vout,
      Calculator.vbat_ov, Calculator.vbat_ok_prog, Calculator.vbat_ok_hyst]
  · exact hv1
  · exact hv2
  · rw [mul_assoc, mul_assoc]
    exact mul_le_mul_of_nonneg_left hv1 (by norm_num)
  · rw [mul_assoc, mul_assoc]
    exact mul_le_mul_of_nonneg_left hv2 (by norm_num)
  · exact hv1
  · exact hv2
  · exact hv1
  · exact hv2
  · exact hh1
  · exact hh2

/-- Witness for the amended C2 at `r1 = r2 = r3 = 1`, `t = 0`. -/
theorem C2_nominal_in_bounds_witness :
    ((WorstCase.two_res_bounds Calculator.vout 1 1 0 (VBIAS_MIN, VBIAS_MAX)).1 ≤
        Calculator.vout 1 1 VBIAS_TYP ∧
      Calculator.vout 1 1 VBIAS_TYP ≤
        (WorstCase.two_res_bounds Calculator.vout 1 1 0 (VBIAS_MIN, VBIAS_MAX)).2) ∧
    ((WorstCase.two_res_bounds Calculator.vbat_ov 1 1 0 (VBIAS_MIN, VBIAS_MAX)).1 ≤
        Calculator.vbat_ov 1 1 VBIAS_TYP ∧
      Calculator.vbat_ov 1 1 VBIAS_TYP ≤
        (WorstCase.two_res_bounds Calculator.vbat_ov 1 1 0 (VBIAS_MIN, VBIAS_MAX)).2) ∧
    ((WorstCase.two_res_bounds Calculator.vbat_ok_prog 1 1 0 (VBIAS_MIN, VBIAS_MAX)).1 ≤
        Calculator.vbat_ok_prog 1 1 VBIAS_TYP ∧
      Calculator.vbat_ok_prog 1 1 VBIAS_TYP ≤
        (WorstCase.two_res_bounds Calculator.vbat_ok_prog 1 1 0 (VBIAS_MIN, VBIAS_MAX)).2) ∧
    ((WorstCase.ok_bounds 1 1 1 0 (VBIAS_MIN, VBIAS_MAX)).1.1 ≤
        Calculator.vbat_ok_prog 1 1 VBIAS_TYP ∧
      Calculator.vbat_ok_prog 1 1 VBIAS_TYP ≤
        (WorstCase.ok_bounds 1 1 1 0 (VBIAS_MIN, VBIAS_MAX)).1.2 ∧
      (WorstCase.ok_bounds 1 1 1 0 (VBIAS_MIN, VBIAS_MAX)).2.1 ≤
        Calculator.vbat_ok_hyst 1 1 1 VBIAS_TYP ∧
      Calculator.vbat_ok_hyst 1 1 1 VBIAS_TYP ≤
        (WorstCase.ok_bounds 1 1 1 0 (VBIAS_MIN, VBIAS_MAX)).2.2) :=
  C2_nominal_in_bounds 1 1 1 0
    (by norm_num) (by norm_num) (by norm_num) (by norm_num) (by norm_num)

/-- C6: `ok_relationships` returns `False` exactly when the programmed
threshold is below the undervoltage floor, the hysteresis threshold is below
the programmed one, or a configured overvoltage ceiling is exceeded, and
`True` otherwise; with floor 1.95 and ceiling 4.2,
`ok_relationships(3.5, 3.7) = True` and `ok_relationships(1.9, 3.7) =
False`. -/
theorem C6_ok_relationships_spec :
    (∀ (d : DatasheetLimits) (vp vh : ℚ),
      d.ok_relationships vp vh = true ↔
        (d.vbat_uv ≤ vp ∧ vp ≤ vh ∧ ∀ ov ∈ d.vbat_ov_target, vh ≤ ov)) ∧
    DatasheetLimits.ok_relationships ⟨1.95, some 4.2⟩ 3.5 3.7 = true ∧
    DatasheetLimits.ok_relationships ⟨1.95, some 4.2⟩ 1.9 3.7 = false :=
  ⟨ok_relationships_iff,
   by norm_num [DatasheetLimits.ok_relationships],
   by norm_num [DatasheetLimits.ok_relationships]⟩

/-- C7: the four transfer functions compute exactly the datasheet formulas,
and `vout(1000000, 1000000, 1.21) = 2.42`. -/
theorem C7_transfer_functions (r1 r2 r3 vbias : ℚ) (hr1 : 0 < r1) :
    Calculator.vout r1 r2 vbias = vbias * (1 + r2 / r1) ∧
    Calculator.vbat_ov r1 r2 vbias = 1.5 * vbias * (1 + r2 / r1) ∧
    Calculator.vbat_ok_prog r1 r2 vbias = vbias * (1 + r2 / r1) ∧
    Calculator.vbat_ok_hyst r1 r2 r3 vbias = vbias * (1 + (r2 + r3) / r1) ∧
    Calculator.vout 1000000 1000000 1.21 = 2.42 :=
  ⟨rfl, rfl, rfl, rfl, by norm_num [Calculator.vout]⟩

/-- Witness for C7 at `r1 = r2 = r3 = 1`, `vbias = 1.21`. -/
theorem C7_transfer_functions_witness :
    Calculator.vout 1 1 1.21 = 1.21 * (1 + 1 / 1) ∧
    Calculator.vbat_ov 1 1 1.21 = 1.5 * 1.21 * (1 + 1 / 1) ∧
    Calculator.vbat_ok_prog 1 1 1.21 = 1.21 * (1 + 1 / 1) ∧
    Calculator.vbat_ok_hyst 1 1 1 1.21 = 1.21 * (1 + (1 + 1) / 1) ∧
    Calculator.vout 1000000 1000000 1.21 = 2.42 :=
  C7_transfer_functions 1 1 1 1.21 (by norm_num)

/-- C10: `ok_relationships` accepts equal thresholds, and rejection on the
hysteresis/programmed comparison happens only for a strictly smaller
hysteresis threshold. -/
theorem C10_ok_relationships_equal_thresholds :
    (∀ (d : DatasheetLimits) (v : ℚ), d.vbat_uv ≤ v →
      (∀ ov ∈ d.vbat_ov_target, v ≤ ov) → d.ok_relationships v v = true) ∧
    (∀ (d : DatasheetLimits) (vp vh : ℚ), d.vbat_uv ≤ vp → vp ≤ vh →
      (∀ ov ∈ d.vbat_ov_target, vh ≤ ov) → d.ok_relationships vp vh = true) :=
  ⟨fun d v h1 h2 => (ok_relationships_iff d v v).mpr ⟨h1, le_refl v, h2⟩,
   fun d vp vh h1 h2 h3 => (ok_relationships_iff d vp vh).mpr ⟨h1, h2, h3⟩⟩

/-- Witness for C10: floor 1.95, no ceiling, equal thresholds 2 V. -/
theorem C10_ok_relationships_equal_thresholds_witness :
    DatasheetLimits.ok_relationships ⟨1.95, none⟩ 2 2 = true :=
  C10_ok_relationships_equal_thresholds.1 ⟨1.95, none⟩ 2 (by norm_num) (by simp)

end BQ25570

namespace BQ25570

/-- The sort key of `search_two` is transitive. -/
theorem twoResLe_trans : ∀ a b c : TwoResCandidate,
    twoResLe a b → twoResLe b c → twoResLe a c := by
  intro a b c hab hbc
  simp only [twoResLe, decide_eq_true_eq] at hab hbc ⊢
  rcases hab with h | ⟨h, h'⟩ <;> rcases hbc with g | ⟨g, g'⟩
  · exact Or.inl (lt_trans h g)
  · exact Or.inl (g ▸ h)
  · exact Or.inl (h ▸ g)
  · exact Or.inr ⟨h.trans g, le_trans h' g'⟩

/-- The sort key of `search_two` is total. -/
theorem twoResLe_total : ∀ a b : TwoResCandidate, twoResLe a b || twoResLe b a := by
  intro a b
  simp only [twoResLe, Bool.or_eq_true, decide_eq_true_eq]
  rcases lt_trichotomy a.error b.error with h | h | h
  · exact Or.inl (Or.inl h)
  · rcases le_total a.rsum b.rsum with h' | h'
    · exact Or.inl (Or.inr ⟨h, h'⟩)
    · exact Or.inr (Or.inr ⟨h.symm, h'⟩)
  · exact Or.inr (Or.inl h)

/-- The sort key of `search_ok` is transitive. -/
theorem threeResLe_trans : ∀ a b c : ThreeResCandidate,
    threeResLe a b → threeResLe b c → threeResLe a c := by
  intro a b c hab hbc
  simp only [threeResLe, decide_eq_true_eq] at hab hbc ⊢
  rcases hab with h | ⟨h, h'⟩ <;> rcases hbc with g | ⟨g, g'⟩
  · exact Or.inl (lt_trans h g)
  · exact Or.inl (g ▸ h)
  · exact Or.inl (h ▸ g)
  · exact Or.inr ⟨h.trans g, le_trans h' g'⟩

/-- The sort key of `search_ok` is total. -/
theorem threeResLe_total : ∀ a b : ThreeResCandidate, threeResLe a b || threeResLe b a := by
  intro a b
  simp only [threeResLe, Bool.or_eq_true, decide_eq_true_eq]
  rcases lt_trichotomy a.error b.error with h | h | h
  · exact Or.inl (Or.inl h)
  · rcases le_total a.rsum b.rsum with h' | h'
    · exact Or.inl (Or.inr ⟨h, h'⟩)
    · exact Or.inr (Or.inr ⟨h.symm, h'⟩)
  · exact Or.inr (Or.inl h)

/-- Any prefix of a `twoResLe`-mergeSorted list is lexicographically sorted
by `(error, rsum)`. -/
theorem sorted_take_two (l : List TwoResCandidate) (n : ℕ) :
    List.Pairwise (fun a b : TwoResCandidate =>
      a.error < b.error ∨ (a.error = b.error ∧ a.rsum ≤ b.rsum))
      ((l.mergeSort twoResLe).take n) := by
  have h := List.sorted_mergeSort twoResLe_trans twoResLe_total l
  have h' := h.sublist (List.take_sublist n _)
  exact h'.imp (fun {a b} hab => by simpa [twoResLe, decide_eq_true_eq] using hab)

/-- Any prefix of a `threeResLe`-mergeSorted list is lexicographically
sorted by `(error, rsum)`. -/
theorem sorted_take_three (l : List ThreeResCandidate) (n : ℕ) :
    List.Pairwise (fun a b : ThreeResCandidate =>
      a.error < b.error ∨ (a.error = b.error ∧ a.rsum ≤ b.rsum))
      ((l.mergeSort threeResLe).take n) := by
  have h := List.sorted_mergeSort threeResLe_trans threeResLe_total l
  have h' := h.sublist (List.take_sublist n _)
  exact h'.imp (fun {a b} hab => by simpa [threeResLe, decide_eq_true_eq] using hab)

/-- C3: both searches return at most `limit` candidates, sorted
non-decreasing by error and, among equal errors, non-decreasing by
resistance sum. -/
theorem C3_search_results_sorted_truncated
    (o : Optimizer) (target : ℚ) (vfunc : ℚ → ℚ → ℚ → ℚ)
    (never_exceed : Option ℚ) (tol_for_ne : ℚ) (target_checker : Option (ℚ → Bool))
    (tp th : Option ℚ) :
    ((o.search_two target vfunc never_exceed tol_for_ne target_checker).length ≤ o.limit ∧
      List.Pairwise (fun a b : TwoResCandidate =>
        a.error < b.error ∨ (a.error = b.error ∧ a.rsum ≤ b.rsum))
        (o.search_two target vfunc never_exceed tol_for_ne target_checker)) ∧
    ((o.search_ok tp th).length ≤ o.limit ∧
      List.Pairwise (fun a b : ThreeResCandidate =>
        a.error < b.error ∨ (a.error = b.error ∧ a.rsum ≤ b.rsum))
        (o.search_ok tp th)) := by
  constructor
  · unfold Optimizer.search_two
    cases target_checker with
    | none => exact ⟨List.length_take_le _ _, sorted_take_two _ _⟩
    | some ck =>
      by_cases h : ck target
      · simp only [if_pos h]
        exact ⟨List.length_take_le _ _, sorted_take_two _ _⟩
      · simp only [if_neg h]
        exact ⟨Nat.zero_le _, List.Pairwise.nil⟩
  · unfold Optimizer.search_ok
    exact ⟨List.length_take_le _ _, sorted_take_three _ _⟩

/-- C4: every candidate returned by `search_ok` satisfies
`ok_relationships` on its programmed/hysteresis voltages. -/
theorem C4_search_ok_satisfies_ok_relationships (o : Optimizer) (tp th : Option ℚ)
    (c : ThreeResCandidate) (hc : c ∈ o.search_ok tp th) :
    o.limits.ok_relationships c.v_prog c.v_hyst = true := by
  have h1 : c ∈ (o.candsOk tp th).mergeSort threeResLe := List.mem_of_mem_take hc
  have h2 : c ∈ o.candsOk tp th := List.mem_mergeSort.mp h1
  unfold Optimizer.candsOk at h2
  simp only [List.mem_flatMap, List.mem_filterMap] at h2
  obtain ⟨r1, -, r2, -, r3, -, h⟩ := h2
  by_cases hs : r1 + r2 + r3 > o.rsum_max
  · simp only [if_pos hs] at h
    exact absurd h (by simp)
  · simp only [if_neg hs] at h
    by_cases hok : o.limits.ok_relationships (Calculator.vbat_ok_prog r1 r2 VBIAS_TYP)
        (Calculator.vbat_ok_hyst r1 r2 r3 VBIAS_TYP)
    · simp only [if_pos hok] at h
      cases tp <;> cases th <;>
        simp only [Option.some.injEq, reduceCtorEq] at h <;>
        (cases h; exact hok)
    · simp only [if_neg hok] at h
      exact absurd h (by simp)

/-- Witness for C4: a one-element pool `[1]` with targets hitting the
computed voltages exactly; the unique candidate passes `ok_relationships`. -/
theorem C4_search_ok_satisfies_ok_relationships_witness :
    (Optimizer.mk ⟨"E24", 6, 6⟩ 100 4 ⟨1.95, none⟩ [1]).limits.ok_relationships
      (ThreeResCandidate.mk 0 2.42 3.63 1 1 1 3).v_prog
      (ThreeResCandidate.mk 0 2.42 3.63 1 1 1 3).v_hyst = true := by
  have hcands : (Optimizer.mk ⟨"E24", 6, 6⟩ 100 4 ⟨1.95, none⟩ [1]).candsOk
      (some 2.42) (some 3.63) = [⟨0, 2.42, 3.63, 1, 1, 1, 3⟩] := by
    unfold Optimizer.candsOk
    norm_num [List.flatMap_cons, List.flatMap_nil, List.filterMap_cons, List.filterMap_nil,
      Calculator.vbat_ok_prog, Calculator.vbat_ok_hyst, VBIAS_TYP,
      DatasheetLimits.ok_relationships]
  refine C4_search_ok_satisfies_ok_relationships _ (some 2.42) (some 3.63) _ ?_
  unfold Optimizer.search_ok
  rw [hcands]
  simp

/-- C5: accepted candidates of the two-resistor search (before sorting and
truncation) under a tighter never-exceed ceiling are also accepted under any
looser ceiling, all other inputs equal. -/
theorem C5_never_exceed_monotone (o : Optimizer) (target : ℚ)
    (vfunc : ℚ → ℚ → ℚ → ℚ) (tol : ℚ) (ne ne' : ℚ) (hne : ne' ≤ ne)
    (c : TwoResCandidate) (hc : c ∈ o.candsTwo target vfunc (some ne') tol) :
    c ∈ o.candsTwo target vfunc (some ne) tol := by
  unfold Optimizer.candsTwo at hc ⊢
  simp only [List.mem_flatMap, List.mem_filterMap] at hc ⊢
  obtain ⟨r1, h1, r2, h2, h⟩ := hc
  refine ⟨r1, h1, r2, h2, ?_⟩
  by_cases hs : r1 + r2 > o.rsum_max
  · simp only [if_pos hs] at h
    exact absurd h (by simp)
  · simp only [if_neg hs] at h ⊢
    by_cases hv : (WorstCase.two_res_bounds vfunc r1 r2 tol (VBIAS_MIN, VBIAS_MAX)).2 >
        ne' + NE_SLACK
    · simp only [if_pos hv] at h
      exact absurd h (by simp)
    · simp only [if_neg hv] at h
      have hv' : ¬((WorstCase.two_res_bounds vfunc r1 r2 tol (VBIAS_MIN, VBIAS_MAX)).2 >
          ne + NE_SLACK) := by
        push_neg at hv ⊢
        linarith
      simp only [if_neg hv']
      exact h

/-- Witness for C5 with pool `[1]`, equal ceilings `10`, tolerance 1%. -/
theorem C5_never_exceed_monotone_witness :
    TwoResCandidate.mk 0 2.42 1 1 2 ∈
      (Optimizer.mk ⟨"E24", 6, 6⟩ 100 4 ⟨1.95, none⟩ [1]).candsTwo 2.42 Calculator.vout
        (some 10) 0.01 := by
  refine C5_never_exceed_monotone _ 2.42 Calculator.vout 0.01 10 10 (le_refl 10) _ ?_
  unfold Optimizer.candsTwo
  norm_num [List.flatMap_cons, List.flatMap_nil, List.filterMap_cons, List.filterMap_nil,
    Calculator.vout, VBIAS_TYP, VBIAS_MIN, VBIAS_MAX, NE_SLACK, WorstCase.two_res_bounds]

/-- C9: degenerate configurations produce empty results: an inverted decade
span yields an empty pool and empty searches, a rejecting target checker
yields an empty two-resistor search without enumeration, and a
three-resistor search with no targets yields an empty list. -/
theorem C9_degenerate_configs_empty :
    (∀ s : ESeries, s.decade_max < s.decade_min → s.values = []) ∧
    (∀ (s : ESeries) (rsum : ℚ) (limit : ℕ) (lim : DatasheetLimits)
        (target : ℚ) (vfunc : ℚ → ℚ → ℚ → ℚ) (ne : Option ℚ) (tol : ℚ)
        (ck : Option (ℚ → Bool)) (tp th : Option ℚ),
      s.decade_max < s.decade_min →
        (Optimizer.ofSeries s rsum limit lim).search_two target vfunc ne tol ck = [] ∧
        (Optimizer.ofSeries s rsum limit lim).search_ok tp th = []) ∧
    (∀ (o : Optimizer) (target : ℚ) (vfunc : ℚ → ℚ → ℚ → ℚ)
        (ne : Option ℚ) (tol : ℚ) (ck : ℚ → Bool),
      ck target = false → o.search_two target vfunc ne tol (some ck) = []) ∧
    (∀ o : Optimizer, o.search_ok none none = []) := by
  have hval : ∀ s : ESeries, s.decade_max < s.decade_min → s.values = [] := by
    intro s h
    unfold ESeries.values decadeRange
    rw [show (s.decade_max + 1 - s.decade_min).toNat = 0 by omega]
    simp
  have hok0 : ∀ o : Optimizer, o.search_ok none none = [] := by
    intro o
    have hcands : o.candsOk none none = [] := by
      unfold Optimizer.candsOk
      rw [List.flatMap_eq_nil_iff]
      intro r1 _
      rw [List.flatMap_eq_nil_iff]
      intro r2 _
      rw [List.filterMap_eq_nil_iff]
      intro r3 _
      dsimp only
      split
      · rfl
      · split <;> rfl
    unfold Optimizer.search_ok
    rw [hcands]
    simp
  refine ⟨hval, ?_, ?_, hok0⟩
  · intro s rsum limit lim target vfunc ne tol ck tp th h
    have hpool : (Optimizer.ofSeries s rsum limit lim).pool = [] := hval s h
    constructor
    · unfold Optimizer.search_two
      have hcands : (Optimizer.ofSeries s rsum limit lim).candsTwo target vfunc ne tol = [] := by
        unfold Optimizer.candsTwo
        rw [hpool]
        rfl
      cases ck with
      | none => rw [hcands]; simp
      | some f =>
        by_cases hf : f target
        · simp only [if_pos hf]
          rw [hcands]
          simp
        · simp only [if_neg hf]
    · unfold Optimizer.search_ok
      have hcands : (Optimizer.ofSeries s rsum limit lim).candsOk tp th = [] := by
        unfold Optimizer.candsOk
        rw [hpool]
        rfl
      rw [hcands]
      simp
  · intro o target vfunc ne tol ck hck
    unfold Optimizer.search_two
    simp [hck]

/-- Witness for C9: an inverted span `[7, 6]`, a constantly-false checker,
and a targetless three-resistor search, each giving `[]`. -/
theorem C9_degenerate_configs_empty_witness :
    (ESeries.mk "E24" 7 6).values = [] ∧
    ((Optimizer.ofSeries ⟨"E24", 7, 6⟩ 100 4 ⟨1.95, none⟩).search_two 3.3 Calculator.vout
        none 0.01 none = [] ∧
      (Optimizer.ofSeries ⟨"E24", 7, 6⟩ 100 4 ⟨1.95, none⟩).search_ok (some 3.5) (some 3.7) = []) ∧
    (Optimizer.mk ⟨"E24", 6, 6⟩ 100 4 ⟨1.95, none⟩ [1]).search_two 10 Calculator.vout none 0.01
      (some fun _ => false) = [] ∧
    (Optimizer.mk ⟨"E24", 6, 6⟩ 100 4 ⟨1.95, none⟩ [1]).search_ok none none = [] :=
  ⟨C9_degenerate_configs_empty.1 _ (by norm_num),
   C9_degenerate_configs_empty.2.1 _ 100 4 _ 3.3 _ none 0.01 none _ _ (by norm_num),
   C9_degenerate_configs_empty.2.2.1 _ 10 _ none 0.01 _ rfl,
   C9_degenerate_configs_empty.2.2.2 _⟩

end BQ25570

namespace BQ25570

/-- The rational comparison used by `sorted` is transitive. -/
theorem ratLe_trans : ∀ a b c : ℚ, ratLe a b → ratLe b c → ratLe a c := by
  intro a b c h1 h2
  simp only [ratLe, decide_eq_true_eq] at h1 h2 ⊢
  exact le_trans h1 h2

/-- The rational comparison used by `sorted` is total. -/
theorem ratLe_total : ∀ a b : ℚ, ratLe a b || ratLe b a := by
  intro a b
  simp only [ratLe, Bool.or_eq_true, decide_eq_true_eq]
  exact le_total a b

/-- Membership in the modelled Python `range(lo, hi + 1)`. -/
theorem decadeRange_mem (lo hi d : ℤ) : d ∈ decadeRange lo hi ↔ lo ≤ d ∧ d ≤ hi := by
  simp only [decadeRange, List.mem_map, List.mem_range]
  constructor
  · rintro ⟨i, hilt, rfl⟩
    omega
  · rintro ⟨h1, h2⟩
    exact ⟨(d - lo).toNat, by omega, by omega⟩

/-- The decade list is strictly increasing. -/
theorem decadeRange_pairwise_lt (lo hi : ℤ) :
    List.Pairwise (· < ·) (decadeRange lo hi) := by
  unfold decadeRange
  rw [List.pairwise_map]
  have h := List.pairwise_lt_range (hi + 1 - lo).toNat
  exact h.imp (fun {a b} hab => by omega)

/-- The 24-entry base table is strictly increasing. -/
theorem E24_pairwise_lt : List.Pairwise (· < ·) E24_BASE :=
  List.chain'_iff_pairwise.mp (by norm_num [E24_BASE, List.chain'_cons])

/-- The 96-entry base table is strictly increasing. -/
theorem E96_pairwise_lt : List.Pairwise (· < ·) E96_BASE :=
  List.chain'_iff_pairwise.mp (by norm_num [E96_BASE, List.chain'_cons])

/-- Every 24-entry base mantissa lies in `[1, 10)`. -/
theorem E24_bounds : ∀ b ∈ E24_BASE, 1 ≤ b ∧ b < 10 := by
  simp only [E24_BASE, List.forall_mem_cons, List.forall_mem_nil]
  norm_num

/-- Every 96-entry base mantissa lies in `[1, 10)`. -/
theorem E96_bounds : ∀ b ∈ E96_BASE, 1 ≤ b ∧ b < 10 := by
  simp only [E96_BASE, List.forall_mem_cons, List.forall_mem_nil]
  norm_num

/-- Mantissa tables confined to `[1, 10)` scaled by different powers of ten
never collide. -/
theorem scaled_map_disjoint (base : List ℚ) (hb : ∀ b ∈ base, 1 ≤ b ∧ b < 10)
    {d1 d2 : ℤ} (h : d1 < d2) :
    List.Disjoint (base.map (fun b => b * (10 : ℚ) ^ d1))
      (base.map (fun b => b * (10 : ℚ) ^ d2)) := by
  intro x hx1 hx2
  simp only [List.mem_map] at hx1 hx2
  obtain ⟨b1, hb1, rfl⟩ := hx1
  obtain ⟨b2, hb2, heq⟩ := hx2
  obtain ⟨k, hk1, hd2⟩ : ∃ k : ℕ, 1 ≤ k ∧ d2 = d1 + (k : ℤ) :=
    ⟨(d2 - d1).toNat, by omega, by omega⟩
  subst hd2
  have h10 : (10 : ℚ) ^ (d1 + (k : ℤ)) = (10 : ℚ) ^ d1 * (10 : ℚ) ^ k := by
    rw [zpow_add₀ (by norm_num : (10 : ℚ) ≠ 0), zpow_natCast]
  have hne : (10 : ℚ) ^ d1 ≠ 0 := zpow_ne_zero _ (by norm_num)
  have heq2 : b2 * (10 : ℚ) ^ k * (10 : ℚ) ^ d1 = b1 * (10 : ℚ) ^ d1 := by
    rw [← heq, h10]
    ring
  have hb1b : b1 = b2 * (10 : ℚ) ^ k := (mul_right_cancel₀ hne heq2).symm
  have h10k : (10 : ℚ) ≤ (10 : ℚ) ^ k := by
    calc (10 : ℚ) = (10 : ℚ) ^ 1 := (pow_one 10).symm
    _ ≤ (10 : ℚ) ^ k := pow_le_pow_right₀ (by norm_num) hk1
  have hA := (hb b1 hb1).2
  have hB := (hb b2 hb2).1
  nlinarith

/-- `ESeries.values` is strictly increasing for every configuration. -/
theorem values_pairwise_lt (s : ESeries) : List.Pairwise (· < ·) s.values := by
  unfold ESeries.values
  have hbp : List.Pairwise (· < ·) (if s.name = "E24" then E24_BASE else E96_BASE) := by
    split
    · exact E24_pairwise_lt
    · exact E96_pairwise_lt
  have hbb : ∀ b ∈ (if s.name = "E24" then E24_BASE else E96_BASE), 1 ≤ b ∧ b < 10 := by
    split
    · exact E24_bounds
    · exact E96_bounds
  set base := if s.name = "E24" then E24_BASE else E96_BASE with hbase
  set vals := (decadeRange s.decade_min s.decade_max).flatMap
    (fun d => base.map (fun b => b * (10 : ℚ) ^ d)) with hvals
  have hnodup : vals.Nodup := by
    rw [hvals, List.nodup_flatMap]
    constructor
    · intro d _
      refine List.Nodup.map ?_ (hbp.imp (fun {a b} h => ne_of_lt h))
      intro x y hxy
      exact mul_right_cancel₀ (zpow_ne_zero _ (by norm_num : (10 : ℚ) ≠ 0)) hxy
    · exact (decadeRange_pairwise_lt _ _).imp
        (fun {d1 d2} h => scaled_map_disjoint base hbb h)
  have hsorted : List.Pairwise (fun a b : ℚ => a ≤ b) (vals.mergeSort ratLe) := by
    have h := List.sorted_mergeSort ratLe_trans ratLe_total vals
    exact h.imp (fun {a b} hab => by simpa [ratLe, decide_eq_true_eq] using hab)
  have hnodup' : (vals.mergeSort ratLe).Nodup :=
    ((List.mergeSort_perm vals ratLe).nodup_iff).mpr hnodup
  exact List.Sorted.lt_of_le hsorted hnodup'

/-- Membership in `ESeries.values`: exactly the base mantissas scaled by the
powers of ten of the configured decade span. -/
theorem values_mem (s : ESeries) (x : ℚ) :
    x ∈ s.values ↔ ∃ d : ℤ, s.decade_min ≤ d ∧ d ≤ s.decade_max ∧
      ∃ b ∈ (if s.name = "E24" then E24_BASE else E96_BASE), x = b * (10 : ℚ) ^ d := by
  unfold ESeries.values
  simp only [List.mem_mergeSort, List.mem_flatMap, List.mem_map, decadeRange_mem]
  constructor
  · rintro ⟨d, ⟨h1, h2⟩, b, hb, rfl⟩
    exact ⟨d, h1, h2, b, hb, rfl⟩
  · rintro ⟨d, h1, h2, b, hb, rfl⟩
    exact ⟨d, ⟨h1, h2⟩, b, hb, rfl⟩

/-- Every element of `ESeries.values` is strictly positive. -/
theorem values_pos (s : ESeries) : ∀ x ∈ s.values, 0 < x := by
  intro x hx
  obtain ⟨d, -, -, b, hb, rfl⟩ := (values_mem s x).mp hx
  have hb1 : 1 ≤ b := by
    revert hb
    split
    · exact fun hb => (E24_bounds b hb).1
    · exact fun hb => (E96_bounds b hb).1
  exact mul_pos (by linarith) (zpow_pos (by norm_num) d)

/-- Concrete evaluation: the 24-value series over decade 6 alone. -/
theorem values_E24_decade6 :
    (ESeries.mk "E24" 6 6).values =
      [1000000, 1100000, 1200000, 1300000, 1500000, 1600000, 1800000, 2000000,
       2200000, 2400000, 2700000, 3000000, 3300000, 3600000, 3900000, 4300000,
       4700000, 5100000, 5600000, 6200000, 6800000, 7500000, 8200000, 9100000] := by
  have h0 : decadeRange 6 6 = [6] := by decide
  have h1 : (ESeries.mk "E24" 6 6).values =
      (E24_BASE.map (fun b => b * (10 : ℚ) ^ (6 : ℤ))).mergeSort ratLe := by
    unfold ESeries.values
    rw [h0]
    simp
  rw [h1]
  have h2 : E24_BASE.map (fun b => b * (10 : ℚ) ^ (6 : ℤ)) =
      [1000000, 1100000, 1200000, 1300000, 1500000, 1600000, 1800000, 2000000,
       2200000, 2400000, 2700000, 3000000, 3300000, 3600000, 3900000, 4300000,
       4700000, 5100000, 5600000, 6200000, 6800000, 7500000, 8200000, 9100000] := by
    norm_num [E24_BASE]
  rw [h2]
  refine List.mergeSort_of_sorted ?_
  simp only [ratLe]
  norm_num [List.pairwise_cons]

/-- C8: for every configured series and decade range, `values()` is strictly
increasing, strictly positive, and equals (as a set) the base-table
mantissas scaled by each decade's power of ten; the 24-value series over
decade 6 alone yields exactly 24 ascending values from `1.0e6` to
`9.1e6`. -/
theorem C8_values_sorted_and_scaled :
    (∀ s : ESeries,
      List.Pairwise (· < ·) s.values ∧
      (∀ x ∈ s.values, 0 < x) ∧
      (∀ x : ℚ, x ∈ s.values ↔ ∃ d : ℤ, s.decade_min ≤ d ∧ d ≤ s.decade_max ∧
        ∃ b ∈ (if s.name = "E24" then E24_BASE else E96_BASE), x = b * (10 : ℚ) ^ d)) ∧
    ((ESeries.mk "E24" 6 6).values.length = 24 ∧
      (ESeries.mk "E24" 6 6).values.head? = some 1000000 ∧
      (ESeries.mk "E24" 6 6).values.getLast? = some 9100000) := by
  refine ⟨fun s => ⟨values_pairwise_lt s, values_pos s, values_mem s⟩, ?_, ?_, ?_⟩ <;>
    rw [values_E24_decade6] <;> rfl

/-- Witness for C8: `1.0e6` is in the decade-6 pool and is positive. -/
theorem C8_values_sorted_and_scaled_witness :
    (1000000 : ℚ) ∈ (ESeries.mk "E24" 6 6).values ∧ (0 : ℚ) < 1000000 := by
  have hm : (1000000 : ℚ) ∈ (ESeries.mk "E24" 6 6).values := by
    rw [values_E24_decade6]
    exact List.mem_cons_self _ _
  exact ⟨hm, (C8_values_sorted_and_scaled.1 ⟨"E24", 6, 6⟩).2.1 1000000 hm⟩

end BQ25570
